import Mathlib

/-!
Shallow embedding of the two scripts of the repository
Personal-Knowledge-Graph-Between-Entities: `ingest.py` (document and URL text
extraction into a JSON file) and `query_interface.py` (an interactive
natural-language-to-Cypher loop).  External library calls (pypdf, python-docx,
`Path.read_text`, requests, BeautifulSoup, `json.loads`, the Neo4j driver,
the Gemini endpoint) are modelled as oracle values describing the outcome of
the call; the control flow around them is translated statement by statement
from the source.
-/

/-- Python exception values, distinguished only as far as the scripts'
`except` clauses distinguish them. -/
inductive PyExn where
  | requestException (msg : String)
  | attributeError (msg : String)
  | unboundLocalError (msg : String)
  | otherError (msg : String)
  deriving DecidableEq

/-- True for the exceptions caught by an `except requests.RequestException`
clause: network errors, timeouts, the `HTTPError` raised by
`raise_for_status`, and (in requests >= 2.27) the `JSONDecodeError` raised
by `response.json()`. -/
def PyExn.is_request_exn : PyExn → Bool
  | .requestException _ => true
  | _ => false

deriving instance DecidableEq for Except

/-- Python `str.isspace` on one character, restricted to the ASCII
whitespace characters (space, tab, newline, carriage return, vertical tab,
form feed). -/
def py_isspace (c : Char) : Bool :=
  c = ' ' ∨ c = Char.ofNat 9 ∨ c = Char.ofNat 10 ∨ c = Char.ofNat 13 ∨
    c = Char.ofNat 11 ∨ c = Char.ofNat 12

/-- Python `str.strip()`: drop leading and trailing whitespace. -/
def py_strip (s : String) : String :=
  ⟨(((s.data.dropWhile py_isspace).reverse).dropWhile py_isspace).reverse⟩

/-- Python `str.startswith(p)`. -/
def py_startswith_chars : List Char → List Char → Bool
  | [], _ => true
  | _ :: _, [] => false
  | p :: ps, c :: cs => c = p && py_startswith_chars ps cs

/-- Python `s.startswith(p)` on strings. -/
def py_startswith (s p : String) : Bool :=
  py_startswith_chars p.data s.data

/-- Python `str.lower()` on one character, restricted to ASCII letters. -/
def py_lower_char (c : Char) : Char :=
  if 65 ≤ c.toNat ∧ c.toNat ≤ 90 then Char.ofNat (c.toNat + 32) else c

/-- Python `str.lower()`. -/
def py_lower (s : String) : String :=
  ⟨s.data.map py_lower_char⟩

namespace Ingest

/-- One record of the output array, `ingest.py` line 76/88:
a `source` name (file name or URL) paired with extracted `content`. -/
structure Record where
  source : String
  content : String
  deriving DecidableEq

/-- Outcome of the `pypdf.PdfReader` interaction in `extract_from_pdf`:
either the per-page results of `page.extract_text()`, or the exception the
library raised. -/
abbrev PdfOracle : Type := Except PyExn (List String)

/-- Outcome of the `docx.Document` interaction in `extract_from_docx`:
either the `para.text` values of the paragraphs, or an exception. -/
abbrev DocxOracle : Type := Except PyExn (List String)

/-- Outcome of `file_path.read_text(encoding="utf-8")` in
`extract_from_txt`: the file contents or an exception. -/
abbrev TxtOracle : Type := Except PyExn String

/-- Outcome of `requests.get` plus the BeautifulSoup processing inside
`extract_from_url`: whether `raise_for_status` passes, and the value of
`soup.body.get_text(separator='\n', strip=True)` after `script`/`style`
elements are decomposed.  `body_text = none` models a parsed document with
no `body` element, where `soup.body` is Python `None` and the attribute
access raises `AttributeError`. -/
structure UrlResponse where
  status_ok : Bool
  body_text : Option String
  deriving DecidableEq

/-- `ingest.py` lines 16-23.  The result of the extractor: `.ok s` when the
function returns the string `s`, `.error e` when an exception escapes it.
The body joins the non-empty page texts with newlines; `except Exception`
catches every library error and returns the empty string. -/
def extract_from_pdf (pdf_pages : PdfOracle) : Except PyExn String :=
  match pdf_pages with
  | .ok pages => .ok (String.intercalate "\n" (pages.filter (fun t => ¬ t = "")))
  | .error _ => .ok ""

/-- `ingest.py` lines 25-32: join the non-empty paragraph texts with
newlines; `except Exception` converts every library error to `""`. -/
def extract_from_docx (docx_paras : DocxOracle) : Except PyExn String :=
  match docx_paras with
  | .ok paras => .ok (String.intercalate "\n" (paras.filter (fun t => ¬ t = "")))
  | .error _ => .ok ""

/-- `ingest.py` lines 34-40: return the file text; `except Exception`
converts every read error to `""`. -/
def extract_from_txt (txt_read : TxtOracle) : Except PyExn String :=
  match txt_read with
  | .ok s => .ok s
  | .error _ => .ok ""

/-- `ingest.py` lines 42-57.  Only `requests.RequestException` is caught:
a network error from `requests.get` and the `HTTPError` from
`raise_for_status` yield `""`, but any other exception — in particular the
`AttributeError` raised by `soup.body.get_text` when the document has no
`body` — escapes the function. -/
def extract_from_url (fetch : Except PyExn UrlResponse) : Except PyExn String :=
  match fetch with
  | .error e => if e.is_request_exn then .ok "" else .error e
  | .ok resp =>
    if ¬ resp.status_ok then .ok ""
    else
      match resp.body_text with
      | some t => .ok t
      | none => .error (.attributeError "NoneType object has no attribute get_text")

/-- A file of the documents directory as `main` sees it: its name, its
`Path.suffix`, and the oracle for whichever parsing library would be
invoked on it. -/
structure DocFile where
  name : String
  suffix : String
  pdf_pages : PdfOracle
  docx_paras : DocxOracle
  txt_read : TxtOracle

/-- `ingest.py` lines 67-73: dispatch on the exact suffix; a file whose
suffix is none of `.pdf`/`.docx`/`.txt` keeps `content = ""`. -/
def dispatch_file (f : DocFile) : Except PyExn String :=
  if f.suffix = ".pdf" then extract_from_pdf f.pdf_pages
  else if f.suffix = ".docx" then extract_from_docx f.docx_paras
  else if f.suffix = ".txt" then extract_from_txt f.txt_read
  else .ok ""

/-- `ingest.py` lines 66-76: the loop over `DOCUMENTS_DIR.iterdir()`,
appending `{"source": file_path.name, "content": content}` when `content`
is truthy (non-empty).  An escaping exception aborts `main`. -/
def file_loop (files : List DocFile) (acc : List Record) : Except PyExn (List Record) :=
  match files with
  | [] => .ok acc
  | f :: rest =>
    match dispatch_file f with
    | .error e => .error e
    | .ok content =>
      file_loop rest (if content = "" then acc else acc ++ [⟨f.name, content⟩])

/-- `ingest.py` lines 84-85: `url = line.strip()` followed by
`if url and not url.startswith('#')`.  Returns the stripped URL when the
line qualifies as an extraction target. -/
def submitted (line : String) : Option String :=
  let url := py_strip line
  if url = "" ∨ py_startswith url "#" then none else some url

/-- `ingest.py` lines 83-88: the loop over the lines of `urls.txt`.  The
first component records, in order, every URL actually passed to
`extract_from_url`; the second is the accumulator at the end of the loop,
or the exception that escaped `extract_from_url` mid-loop. -/
def url_loop (fetch : String → Except PyExn UrlResponse) (lines : List String)
    (acc : List Record) : List String × Except PyExn (List Record) :=
  match lines with
  | [] => ([], .ok acc)
  | line :: rest =>
    match submitted line with
    | none => url_loop fetch rest acc
    | some url =>
      match extract_from_url (fetch url) with
      | .error e => ([url], .error e)
      | .ok content =>
        let next := url_loop fetch rest (if content = "" then acc else acc ++ [⟨url, content⟩])
        (url :: next.1, next.2)

/-- Outcome of `main`: the write step was reached with data (`wrote`), the
accumulator was empty so no output file was created (`no_output`), or an
uncaught exception aborted the run (`crashed`). -/
inductive MainOutcome where
  | wrote (data : List Record)
  | no_output
  | crashed (e : PyExn)
  deriving DecidableEq

/-- `ingest.py` lines 61-102.  `docs = none` models a missing documents
directory, `url_lines = none` a missing `urls.txt`; both are logged and
skipped.  The first component is the trace of URLs submitted to
`extract_from_url`.  Lines 93-95: an empty accumulator means no output
file is created; otherwise the write step (line 98) is reached, whose own
`IOError` is caught and reported. -/
def main (docs : Option (List DocFile)) (url_lines : Option (List String))
    (fetch : String → Except PyExn UrlResponse) : List String × MainOutcome :=
  match (match docs with | some files => file_loop files [] | none => .ok []) with
  | .error e => ([], .crashed e)
  | .ok d1 =>
    match url_lines with
    | none => ([], if d1 = [] then .no_output else .wrote d1)
    | some lines =>
      match url_loop fetch lines d1 with
      | (calls, .error e) => (calls, .crashed e)
      | (calls, .ok data) => (calls, if data = [] then .no_output else .wrote data)

/-- The record that a single documents-directory entry contributes:
`some` exactly when its extraction produced non-empty text. -/
def file_extraction (f : DocFile) : Option Record :=
  match dispatch_file f with
  | .ok c => if c = "" then none else some ⟨f.name, c⟩
  | .error _ => none

/-- The record that a single `urls.txt` line contributes: `some` exactly
when the line is submitted and its extraction returns non-empty text. -/
def url_extraction (fetch : String → Except PyExn UrlResponse) (line : String) :
    Option Record :=
  match submitted line with
  | none => none
  | some url =>
    match extract_from_url (fetch url) with
    | .ok c => if c = "" then none else some ⟨url, c⟩
    | .error _ => none

end Ingest

namespace QueryInterface

/-- A result row of a Cypher query, `dict(record)` in `run_query`:
column names paired with (stringified) values. -/
abbrev Row : Type := List (String × String)

/-- `query_interface.py` lines 41-48.  The oracle is the outcome of
`session.run(query)` together with the materialisation of its records:
either the list of rows or the exception the driver raised.  The
`try`/`except Exception` block converts every execution error to `None`;
a successful run with zero rows yields the empty list. -/
def run_query (exec : Except PyExn (List Row)) : Option (List Row) :=
  match exec with
  | .ok rows => some rows
  | .error _ => none

/-- The Python object produced by `json.loads(generated_text)` in
`translate`, restricted to the two fields the script ever reads.  A field
is `none` when the key is absent from the parsed JSON object.  (A loads
result that is not an object at all is not needed by any claim and is not
modelled.) -/
structure LoadedObj where
  query : Option String
  explanation : Option String
  deriving DecidableEq

/-- Outcome of `response.json()` in `translate`: the only part of the
nested payload the script reads is
`response_json['candidates'][0]['content']['parts'][0]['text']`.
`generated_text = none` models any `KeyError`/`IndexError` along that
path. -/
structure RespBody where
  generated_text : Option String
  deriving DecidableEq

/-- Outcome of `requests.post` in `translate`: whether
`raise_for_status` passes, the raw `response.text`, and the parsed JSON
body — `body_json = none` when `response.json()` raises (in
requests >= 2.27 that exception is a `RequestException`). -/
structure HttpResponse where
  status_ok : Bool
  text : String
  body_json : Option RespBody

/-- The environment of one `translate` call: the outcome of the POST to
the Gemini endpoint, and the behaviour of `json.loads` on the generated
text (`none` models a `json.JSONDecodeError`). -/
structure LlmEnv where
  post : Except PyExn HttpResponse
  loads : String → Option LoadedObj

/-- Result of `translate`: the parsed object, Python `None`, or an
exception escaping the method. -/
inductive TransResult where
  | ok (obj : LoadedObj)
  | null
  | raised (e : PyExn)
  deriving DecidableEq

/-- `query_interface.py` lines 92-105.  The `try` body runs
`requests.post`, `raise_for_status`, `response.json()`, the nested field
access, and `json.loads`.  The first `except` clause catches
`requests.RequestException` and prints `response.text` — but when
`requests.post` itself raised, the local variable `response` was never
assigned, and that print raises `UnboundLocalError`, which escapes
`translate`.  The second clause catches `KeyError`/`IndexError`/
`json.JSONDecodeError` and prints `response_json`, which is always bound
when those are raised. -/
def translate (env : LlmEnv) : TransResult :=
  match env.post with
  | .error e =>
    if e.is_request_exn then .raised (.unboundLocalError "response")
    else .raised e
  | .ok resp =>
    if ¬ resp.status_ok then .null
    else
      match resp.body_json with
      | none => .null
      | some body =>
        match body.generated_text with
        | none => .null
        | some txt =>
          match env.loads txt with
          | none => .null
          | some obj => .ok obj

/-- One iteration's scripted input: the line typed by the user, the LLM
environment its translation runs in, and the outcome of
`session.run(cypher_query)` should the query be executed. -/
structure LoopInput where
  question : String
  llm : LlmEnv
  exec : Except PyExn (List Row)

/-- What one non-exit iteration of the interactive loop did: rejected the
model response (`invalid`, printing "Could not generate valid query."), or
ran the query with the displayed explanation and the result `run_query`
returned. -/
inductive IterEvent where
  | invalid
  | ran (query : String) (explanation : String) (result : Option (List Row))
  deriving DecidableEq

/-- How the loop ended: `break` on the exit command, the scripted input
list ran out, or an exception escaped an iteration (caught by the
top-level handler, which terminates the program). -/
inductive LoopExit where
  | userExit
  | inputsExhausted
  | crashed (e : PyExn)
  deriving DecidableEq

/-- Trace of a loop run: the questions passed to
`query_translator.translate` in order, the per-iteration events, and how
the loop ended. -/
structure LoopTrace where
  translated : List String
  events : List IterEvent
  exit : LoopExit
  deriving DecidableEq

/-- `query_interface.py` lines 131-154.  Each iteration reads a question;
`question.lower() == 'exit'` breaks the loop.  Otherwise `translate` is
called; `if not structured_response or "query" not in structured_response`
rejects `None`, empty objects and objects without a `query` field;
otherwise the explanation defaults to "No explanation provided." via
`.get`, the query is run, and results are displayed when not `None`. -/
def run_loop (inputs : List LoopInput) : LoopTrace :=
  match inputs with
  | [] => ⟨[], [], .inputsExhausted⟩
  | i :: rest =>
    if py_lower i.question = "exit" then ⟨[], [], .userExit⟩
    else
      match translate i.llm with
      | .raised e => ⟨[i.question], [], .crashed e⟩
      | .null =>
        let t := run_loop rest
        ⟨i.question :: t.translated, .invalid :: t.events, t.exit⟩
      | .ok obj =>
        match obj.query with
        | none =>
          let t := run_loop rest
          ⟨i.question :: t.translated, .invalid :: t.events, t.exit⟩
        | some q =>
          let t := run_loop rest
          ⟨i.question :: t.translated,
           .ran q (obj.explanation.getD "No explanation provided.") (run_query i.exec) :: t.events,
           t.exit⟩

end QueryInterface

namespace JsonOut

/-- Lower-case hexadecimal digit, as Python's `json` module emits in
`\uXXXX` escapes. -/
def hexDigit (n : Nat) : Char :=
  if n < 10 then Char.ofNat (48 + n) else Char.ofNat (87 + n)

/-- Value of one hexadecimal digit character, as a JSON parser reads it. -/
def fromHexDigit (c : Char) : Option Nat :=
  if 48 ≤ c.toNat ∧ c.toNat ≤ 57 then some (c.toNat - 48)
  else if 97 ≤ c.toNat ∧ c.toNat ≤ 102 then some (c.toNat - 87)
  else if 65 ≤ c.toNat ∧ c.toNat ≤ 70 then some (c.toNat - 55)
  else none

/-- Value of a four-digit `\uXXXX` escape. -/
def hex4 (d1 d2 d3 d4 : Char) : Option Nat :=
  match fromHexDigit d1, fromHexDigit d2, fromHexDigit d3, fromHexDigit d4 with
  | some a, some b, some c, some d => some (4096 * a + 256 * b + 16 * c + d)
  | _, _, _, _ => none

/-- How `json.dump` with `ensure_ascii=False` writes one character of a
string value: `"` and `\` get a backslash, the five control characters
with short escapes use them, the remaining code points below 0x20 become
`\u00xx`, and every other character — all non-ASCII included — is written
literally. -/
def escape_char (c : Char) : List Char :=
  if c = '"' then ['\\', '"']
  else if c = '\\' then ['\\', '\\']
  else if c.toNat = 8 then ['\\', 'b']
  else if c.toNat = 9 then ['\\', 't']
  else if c.toNat = 10 then ['\\', 'n']
  else if c.toNat = 12 then ['\\', 'f']
  else if c.toNat = 13 then ['\\', 'r']
  else if c.toNat < 32 then ['\\', 'u', '0', '0', hexDigit (c.toNat / 16), hexDigit (c.toNat % 16)]
  else [c]

/-- The serialized form of a string value's characters. -/
def json_escape (s : String) : String :=
  ⟨s.data.flatMap escape_char⟩

/-- The character denoted by a single-character escape sequence in a JSON
string literal. -/
def unescape_char (e : Char) : Option Char :=
  if e = '"' then some '"'
  else if e = '\\' then some '\\'
  else if e = '/' then some '/'
  else if e = 'b' then some (Char.ofNat 8)
  else if e = 'f' then some (Char.ofNat 12)
  else if e = 'n' then some (Char.ofNat 10)
  else if e = 'r' then some (Char.ofNat 13)
  else if e = 't' then some (Char.ofNat 9)
  else none

/-- JSON string-literal scanner: reads characters after the opening quote
up to and including the closing quote, decoding escape sequences; returns
the decoded characters and the unconsumed remainder. -/
def scan_string (l : List Char) : Option (List Char × List Char) :=
  match l with
  | [] => none
  | c :: rest =>
    if c = '"' then some ([], rest)
    else if c = '\\' then
      match rest with
      | [] => none
      | e :: r =>
        if e = 'u' then
          match r with
          | [] => none
          | [_] => none
          | [_, _] => none
          | [_, _, _] => none
          | d1 :: d2 :: d3 :: d4 :: r2 =>
            match hex4 d1 d2 d3 d4 with
            | some n => (scan_string r2).map (fun p => (Char.ofNat n :: p.1, p.2))
            | none => none
        else
          match unescape_char e with
          | some c2 => (scan_string r).map (fun p => (c2 :: p.1, p.2))
          | none => none
    else (scan_string rest).map (fun p => (c :: p.1, p.2))

/-- Consume an expected literal prefix, returning the remainder. -/
def expect : List Char → List Char → Option (List Char)
  | [], l => some l
  | _ :: _, [] => none
  | p :: ps, c :: cs => if c = p then expect ps cs else none

/-- Text from the start of a serialized record up to the opening quote of
the `source` value, as `json.dump(all_data, f, indent=2)` lays it out. -/
def rec_open : String := "  \x7b\n    \"source\": \""

/-- Text between the closing quote of the `source` value and the opening
quote of the `content` value. -/
def rec_mid : String := ",\n    \"content\": \""

/-- Text after the closing quote of the `content` value. -/
def rec_close : String := "\n  \x7d"

/-- Serialized form of one record, at indent level 1. -/
def render_record (r : Ingest.Record) : String :=
  rec_open ++ json_escape r.source ++ "\"" ++ rec_mid ++ json_escape r.content ++ "\"" ++ rec_close

/-- Serialized forms of the records of a non-empty array, joined by the
item separator of `indent=2` output. -/
def render_items : List Ingest.Record → String
  | [] => ""
  | [r] => render_record r
  | r :: rest => render_record r ++ ",\n" ++ render_items rest

/-- The full text `json.dump(all_data, f, indent=2, ensure_ascii=False)`
writes to `extracted_data.json` (`ingest.py` line 99). -/
def render_records (rs : List Ingest.Record) : String :=
  if rs = [] then "[]" else "[\n" ++ render_items rs ++ "\n]"

/-- Parse one serialized record, returning it and the remainder. -/
def parse_record (l : List Char) : Option (Ingest.Record × List Char) :=
  match expect rec_open.data l with
  | none => none
  | some l1 =>
    match scan_string l1 with
    | none => none
    | some (src, l2) =>
      match expect rec_mid.data l2 with
      | none => none
      | some l3 =>
        match scan_string l3 with
        | none => none
        | some (cont, l4) =>
          match expect rec_close.data l4 with
          | none => none
          | some l5 => some (⟨⟨src⟩, ⟨cont⟩⟩, l5)

/-- Parse the records of a non-empty array: after each record either the
item separator continues the array or the closing bracket ends it.  The
fuel argument bounds recursion depth; callers pass the input length. -/
def parse_items : Nat → List Char → Option (List Ingest.Record × List Char)
  | 0, _ => none
  | fuel + 1, l =>
    match parse_record l with
    | none => none
    | some (r, l1) =>
      match expect [',', '\n'] l1 with
      | some l2 =>
        match parse_items fuel l2 with
        | none => none
        | some (rs, rem) => some (r :: rs, rem)
      | none =>
        match expect ['\n', ']'] l1 with
        | some l2 => some ([r], l2)
        | none => none

/-- Re-parse the serialized output file into its list of records. -/
def parse_records (s : String) : Option (List Ingest.Record) :=
  if s = "[]" then some []
  else
    match expect ['[', '\n'] s.data with
    | none => none
    | some l =>
      match parse_items l.length l with
      | none => none
      | some (rs, rem) => if rem = [] then some rs else none

end JsonOut

namespace Ingest
theorem dispatch_file_ok (f : DocFile) : ∃ c, dispatch_file f = .ok c := by
  unfold dispatch_file
  split_ifs
  · cases h : f.pdf_pages <;> simp [extract_from_pdf, h]
  · cases h : f.docx_paras <;> simp [extract_from_docx, h]
  · cases h : f.txt_read <;> simp [extract_from_txt, h]
  · exact ⟨"", rfl⟩

theorem file_loop_eq (files : List DocFile) (acc : List Record) :
    file_loop files acc = .ok (acc ++ files.filterMap file_extraction) := by
  induction files generalizing acc with
  | nil => simp [file_loop]
  | cons f rest ih =>
    obtain ⟨c, hc⟩ := dispatch_file_ok f
    by_cases he : c = ""
    · simp [file_loop, hc, he, ih, file_extraction]
    · simp [file_loop, hc, he, ih, file_extraction]

theorem url_loop_calls_submitted (fetch : String → Except PyExn UrlResponse)
    (lines : List String) (acc : List Record) :
    ∀ u ∈ (url_loop fetch lines acc).1, ∃ l ∈ lines, submitted l = some u := by
  induction lines generalizing acc with
  | nil => simp [url_loop]
  | cons line rest ih =>
    intro u hu
    rw [url_loop] at hu
    cases hs : submitted line with
    | none =>
      simp only [hs] at hu
      obtain ⟨l, hl, hsl⟩ := ih acc u hu
      exact ⟨l, List.mem_cons_of_mem _ hl, hsl⟩
    | some url =>
      simp only [hs] at hu
      cases hx : extract_from_url (fetch url) with
      | error e =>
        simp only [hx, List.mem_singleton] at hu
        exact ⟨line, List.mem_cons_self _ _, hu ▸ hs⟩
      | ok content =>
        simp only [hx, List.mem_cons] at hu
        rcases hu with h | h
        · exact ⟨line, List.mem_cons_self _ _, h ▸ hs⟩
        · obtain ⟨l, hl, hsl⟩ := ih _ u h
          exact ⟨l, List.mem_cons_of_mem _ hl, hsl⟩

theorem url_loop_ok_eq (fetch : String → Except PyExn UrlResponse)
    (lines : List String) (acc : List Record) (calls : List String)
    (data : List Record) (h : url_loop fetch lines acc = (calls, .ok data)) :
    data = acc ++ lines.filterMap (url_extraction fetch) ∧
    calls = lines.filterMap submitted := by
  induction lines generalizing acc calls data with
  | nil =>
    rw [url_loop] at h
    obtain ⟨h1, h2⟩ := Prod.mk.injEq .. ▸ h
    refine ⟨?_, by simp [h1.symm]⟩
    cases h2
    simp
  | cons line rest ih =>
    rw [url_loop] at h
    cases hs : submitted line with
    | none =>
      simp only [hs] at h
      obtain ⟨hd, hc⟩ := ih acc calls data h
      simp [hd, hc, List.filterMap_cons, hs, url_extraction]
    | some url =>
      simp only [hs] at h
      cases hx : extract_from_url (fetch url) with
      | error e => simp only [hx] at h; simp at h
      | ok content =>
        simp only [hx] at h
        obtain ⟨h1, h2⟩ := Prod.mk.injEq .. ▸ h
        cases hcall : (url_loop fetch rest
            (if content = "" then acc else acc ++ [⟨url, content⟩])) with
        | mk callsr res =>
          rw [hcall] at h1 h2
          simp only at h1 h2
          obtain ⟨hd, hc⟩ := ih _ callsr data (by rw [hcall, h2])
          by_cases he : content = ""
          · simp only [he, if_pos rfl] at hd
            simp [← h1, hd, hc, List.filterMap_cons, hs, url_extraction, hx, he]
          · simp only [if_neg he] at hd
            simp [← h1, hd, hc, List.filterMap_cons, hs, url_extraction, hx, he]

theorem url_loop_all_empty (fetch : String → Except PyExn UrlResponse)
    (lines : List String) (acc : List Record)
    (h : ∀ l ∈ lines, ∀ u, submitted l = some u → extract_from_url (fetch u) = .ok "") :
    url_loop fetch lines acc = (lines.filterMap submitted, .ok acc) := by
  induction lines generalizing acc with
  | nil => simp [url_loop]
  | cons line rest ih =>
    rw [url_loop]
    cases hs : submitted line with
    | none =>
      simp only [hs]
      rw [ih acc (fun l hl => h l (List.mem_cons_of_mem _ hl))]
      simp [List.filterMap_cons, hs]
    | some url =>
      simp [hs, h line (List.mem_cons_self _ _) url hs,
        ih acc (fun l hl => h l (List.mem_cons_of_mem _ hl)), List.filterMap_cons]


end Ingest

namespace Ingest

theorem submitted_spec (line u : String) (h : submitted line = some u) :
    u = py_strip line ∧ ¬ u = "" ∧ ¬ py_startswith u "#" = true := by
  rw [submitted] at h
  by_cases hc : py_strip line = "" ∨ py_startswith (py_strip line) "#" = true
  · rw [if_pos hc] at h; cases h
  · rw [if_neg hc] at h
    injection h with h
    subst h
    exact ⟨rfl, fun h0 => hc (Or.inl h0), fun h0 => hc (Or.inr h0)⟩

theorem file_extraction_content (f : DocFile) (r : Record)
    (h : file_extraction f = some r) : ¬ r.content = "" := by
  unfold file_extraction at h
  cases hd : dispatch_file f with
  | error e => simp only [hd] at h; cases h
  | ok c =>
    simp only [hd] at h
    by_cases he : c = ""
    · rw [if_pos he] at h; cases h
    · rw [if_neg he] at h
      injection h with h
      subst h
      exact he

theorem url_extraction_content (fetch : String → Except PyExn UrlResponse)
    (line : String) (r : Record) (h : url_extraction fetch line = some r) :
    ¬ r.content = "" := by
  unfold url_extraction at h
  cases hs : submitted line with
  | none => simp only [hs] at h; cases h
  | some url =>
    simp only [hs] at h
    cases hx : extract_from_url (fetch url) with
    | error e => simp only [hx] at h; cases h
    | ok c =>
      simp only [hx] at h
      by_cases he : c = ""
      · rw [if_pos he] at h; cases h
      · rw [if_neg he] at h
        injection h with h
        subst h
        exact he

theorem docs_phase_eq (docs : Option (List DocFile)) :
    (match docs with | some files => file_loop files [] | none => .ok ([] : List Record)) =
      .ok ((docs.getD []).filterMap file_extraction) := by
  cases docs with
  | none => simp
  | some files => simp [file_loop_eq]

theorem main_wrote_spec (docs : Option (List DocFile)) (url_lines : Option (List String))
    (fetch : String → Except PyExn UrlResponse) (calls : List String)
    (data : List Record)
    (h : main docs url_lines fetch = (calls, .wrote data)) :
    data = (docs.getD []).filterMap file_extraction ++
           (url_lines.getD []).filterMap (url_extraction fetch) ∧
    ¬ data = [] ∧
    calls = (url_lines.getD []).filterMap submitted := by
  unfold main at h
  rw [docs_phase_eq] at h
  cases url_lines with
  | none =>
    simp only at h
    split_ifs at h with hd
    · simp at h
    · rw [Prod.mk.injEq] at h
      obtain ⟨h1, h2⟩ := h
      injection h2 with h2
      subst h2
      simp [← h1, hd]
  | some lines =>
    simp only at h
    cases hul : url_loop fetch lines ((docs.getD []).filterMap file_extraction) with
    | mk calls0 res =>
      rw [hul] at h
      cases res with
      | error e => simp at h
      | ok d =>
        simp only at h
        split_ifs at h with hd
        · simp at h
        · rw [Prod.mk.injEq] at h
          obtain ⟨h1, h2⟩ := h
          injection h2 with h2
          obtain ⟨hdata, hcalls⟩ := url_loop_ok_eq fetch lines _ calls0 d hul
          rw [← h2, ← h1]
          exact ⟨by simpa using hdata, h2 ▸ hd, by simpa using hcalls⟩

theorem main_calls_spec (docs : Option (List DocFile)) (url_lines : Option (List String))
    (fetch : String → Except PyExn UrlResponse) :
    ∀ u ∈ (main docs url_lines fetch).1, ∃ l ∈ url_lines.getD [], submitted l = some u := by
  unfold main
  rw [docs_phase_eq]
  cases url_lines with
  | none => simp
  | some lines =>
    simp only
    cases hul : url_loop fetch lines ((docs.getD []).filterMap file_extraction) with
    | mk calls0 res =>
      cases res with
      | error e =>
        intro u hu
        simp only at hu
        have := url_loop_calls_submitted fetch lines
          ((docs.getD []).filterMap file_extraction) u (by rw [hul]; exact hu)
        simpa using this
      | ok d =>
        intro u hu
        simp only at hu
        have := url_loop_calls_submitted fetch lines
          ((docs.getD []).filterMap file_extraction) u (by rw [hul]; exact hu)
        simpa using this

theorem main_all_empty (docs : Option (List DocFile)) (url_lines : Option (List String))
    (fetch : String → Except PyExn UrlResponse)
    (hf : ∀ files, docs = some files → ∀ f ∈ files, dispatch_file f = .ok "")
    (hu : ∀ ls, url_lines = some ls → ∀ l ∈ ls, ∀ u, submitted l = some u →
      extract_from_url (fetch u) = .ok "") :
    (main docs url_lines fetch).2 = .no_output := by
  have hD : (docs.getD []).filterMap file_extraction = [] := by
    rw [List.filterMap_eq_nil_iff]
    intro f hfm
    cases docs with
    | none => simp at hfm
    | some files =>
      simp only [Option.getD_some] at hfm
      have hok := hf files rfl f hfm
      unfold file_extraction
      simp [hok]
  unfold main
  rw [docs_phase_eq, hD]
  cases url_lines with
  | none => simp
  | some lines =>
    simp only
    rw [url_loop_all_empty fetch lines [] (hu lines rfl)]
    simp

end Ingest

namespace JsonOut

theorem json_escape_data (s : String) :
    (json_escape s).data = s.data.flatMap escape_char := rfl

theorem fromHexDigit_hexDigit (n : Nat) (h : n < 16) :
    fromHexDigit (hexDigit n) = some n := by
  interval_cases n <;> decide

theorem hex4_two_digit (n : Nat) (h : n < 32) :
    hex4 '0' '0' (hexDigit (n / 16)) (hexDigit (n % 16)) = some n := by
  have h1 : fromHexDigit (hexDigit (n / 16)) = some (n / 16) :=
    fromHexDigit_hexDigit _ (by omega)
  have h2 : fromHexDigit (hexDigit (n % 16)) = some (n % 16) :=
    fromHexDigit_hexDigit _ (by omega)
  unfold hex4
  rw [show fromHexDigit '0' = some 0 from by decide, h1, h2]
  exact congrArg some (by omega)

theorem scan_string_quote (rest : List Char) :
    scan_string ('"' :: rest) = some ([], rest) := by
  rw [scan_string.eq_def]
  simp

theorem scan_string_lit (c : Char) (rest : List Char) (h1 : ¬ c = '"') (h2 : ¬ c = '\\') :
    scan_string (c :: rest) = (scan_string rest).map (fun p => (c :: p.1, p.2)) := by
  rw [scan_string.eq_def]
  simp [h1, h2]

theorem scan_string_esc (e c2 : Char) (rest : List Char) (he : ¬ e = 'u')
    (hu : unescape_char e = some c2) :
    scan_string ('\\' :: e :: rest) = (scan_string rest).map (fun p => (c2 :: p.1, p.2)) := by
  rw [scan_string.eq_def]
  simp [he, hu]

theorem scan_string_u (d1 d2 d3 d4 : Char) (n : Nat) (rest : List Char)
    (h : hex4 d1 d2 d3 d4 = some n) :
    scan_string ('\\' :: 'u' :: d1 :: d2 :: d3 :: d4 :: rest) =
      (scan_string rest).map (fun p => (Char.ofNat n :: p.1, p.2)) := by
  rw [scan_string.eq_def]
  simp [h]

theorem escape_char_lit (c : Char) (hge : 32 ≤ c.toNat) (h1 : ¬ c = '"') (h2 : ¬ c = '\\') :
    escape_char c = [c] := by
  unfold escape_char
  rw [if_neg h1, if_neg h2, if_neg (by omega), if_neg (by omega), if_neg (by omega),
      if_neg (by omega), if_neg (by omega), if_neg (by omega)]

theorem scan_string_escape (s rest : List Char) :
    scan_string (s.flatMap escape_char ++ '"' :: rest) = some (s, rest) := by
  induction s with
  | nil => simp [scan_string_quote]
  | cons c cs ih =>
    rw [List.flatMap_cons, List.append_assoc]
    by_cases h1 : c = '"'
    · subst h1
      rw [show escape_char '"' = ['\\', '"'] from by decide]
      simp only [List.cons_append, List.nil_append]
      rw [scan_string_esc '"' '"' _ (by decide) (by decide), ih]
      rfl
    by_cases h2 : c = '\\'
    · subst h2
      rw [show escape_char '\\' = ['\\', '\\'] from by decide]
      simp only [List.cons_append, List.nil_append]
      rw [scan_string_esc '\\' '\\' _ (by decide) (by decide), ih]
      rfl
    by_cases h3 : c.toNat = 8
    · rw [show escape_char c = ['\\', 'b'] from by unfold escape_char; rw [if_neg h1, if_neg h2, if_pos h3]]
      simp only [List.cons_append, List.nil_append]
      rw [scan_string_esc 'b' (Char.ofNat 8) _ (by decide) (by decide), ih, ← h3,
        Char.ofNat_toNat]
      rfl
    by_cases h4 : c.toNat = 9
    · rw [show escape_char c = ['\\', 't'] from by
        unfold escape_char; rw [if_neg h1, if_neg h2, if_neg h3, if_pos h4]]
      simp only [List.cons_append, List.nil_append]
      rw [scan_string_esc 't' (Char.ofNat 9) _ (by decide) (by decide), ih, ← h4,
        Char.ofNat_toNat]
      rfl
    by_cases h5 : c.toNat = 10
    · rw [show escape_char c = ['\\', 'n'] from by
        unfold escape_char; rw [if_neg h1, if_neg h2, if_neg h3, if_neg h4, if_pos h5]]
      simp only [List.cons_append, List.nil_append]
      rw [scan_string_esc 'n' (Char.ofNat 10) _ (by decide) (by decide), ih, ← h5,
        Char.ofNat_toNat]
      rfl
    by_cases h6 : c.toNat = 12
    · rw [show escape_char c = ['\\', 'f'] from by
        unfold escape_char; rw [if_neg h1, if_neg h2, if_neg h3, if_neg h4, if_neg h5, if_pos h6]]
      simp only [List.cons_append, List.nil_append]
      rw [scan_string_esc 'f' (Char.ofNat 12) _ (by decide) (by decide), ih, ← h6,
        Char.ofNat_toNat]
      rfl
    by_cases h7 : c.toNat = 13
    · rw [show escape_char c = ['\\', 'r'] from by
        unfold escape_char;
        rw [if_neg h1, if_neg h2, if_neg h3, if_neg h4, if_neg h5, if_neg h6, if_pos h7]]
      simp only [List.cons_append, List.nil_append]
      rw [scan_string_esc 'r' (Char.ofNat 13) _ (by decide) (by decide), ih, ← h7,
        Char.ofNat_toNat]
      rfl
    by_cases h8 : c.toNat < 32
    · rw [show escape_char c =
          ['\\', 'u', '0', '0', hexDigit (c.toNat / 16), hexDigit (c.toNat % 16)] from by
        unfold escape_char;
        rw [if_neg h1, if_neg h2, if_neg h3, if_neg h4, if_neg h5, if_neg h6, if_neg h7,
          if_pos h8]]
      simp only [List.cons_append, List.nil_append]
      rw [scan_string_u _ _ _ _ _ _ (hex4_two_digit c.toNat h8), ih, Char.ofNat_toNat]
      rfl
    · rw [escape_char_lit c (by omega) h1 h2]
      simp only [List.cons_append, List.nil_append]
      rw [scan_string_lit c _ h1 h2, ih]
      rfl

end JsonOut

namespace JsonOut

theorem expect_append (pat rest : List Char) : expect pat (pat ++ rest) = some rest := by
  induction pat with
  | nil => simp [expect]
  | cons p ps ih => simp [expect, ih]

theorem quote_data : ("\"" : String).data = ['"'] := rfl

theorem parse_record_render (r : Ingest.Record) (rest : List Char) :
    parse_record ((render_record r).data ++ rest) = some (r, rest) := by
  have h : (render_record r).data ++ rest =
      rec_open.data ++ (r.source.data.flatMap escape_char ++ ('"' ::
        (rec_mid.data ++ (r.content.data.flatMap escape_char ++ ('"' ::
          (rec_close.data ++ rest)))))) := by
    rw [render_record]
    simp only [String.data_append, json_escape_data, quote_data, List.append_assoc,
      List.cons_append, List.nil_append]
  rw [h]
  unfold parse_record
  simp only [expect_append, scan_string_escape]

theorem expect_comma_newline (rest : List Char) :
    expect [',', '\n'] (',' :: '\n' :: rest) = some rest := by
  simp [expect]

theorem expect_newline_first (c : Char) (h : ¬ c = ',') (l : List Char) :
    expect [',', '\n'] (c :: l) = none := by
  simp [expect, h]

theorem expect_newline_bracket (rest : List Char) :
    expect ['\n', ']'] ('\n' :: ']' :: rest) = some rest := by
  simp [expect]

theorem comma_newline_data : (",\n" : String).data = [',', '\n'] := rfl

theorem parse_items_render (rs : List Ingest.Record) :
    ∀ (rest : List Char) (fuel : Nat), ¬ rs = [] → rs.length ≤ fuel →
      parse_items fuel ((render_items rs).data ++ '\n' :: ']' :: rest) = some (rs, rest) := by
  induction rs with
  | nil => intro rest fuel hne; cases hne rfl
  | cons r rs' ih =>
    intro rest fuel hne hf
    cases fuel with
    | zero => simp at hf
    | succ fuel' =>
      cases rs' with
      | nil =>
        simp only [render_items]
        rw [parse_items]
        simp only [parse_record_render, expect_newline_first '\n' (by decide),
          expect_newline_bracket]
      | cons r2 rs'' =>
        simp only [render_items]
        have hsplit : ((render_record r ++ ",\n" ++ render_items (r2 :: rs'')).data ++
            '\n' :: ']' :: rest) =
            (render_record r).data ++ (',' :: '\n' ::
              ((render_items (r2 :: rs'')).data ++ '\n' :: ']' :: rest)) := by
          simp only [String.data_append, comma_newline_data, List.append_assoc,
            List.cons_append, List.nil_append]
        rw [hsplit, parse_items]
        have hih := ih rest fuel' (by simp) (by simp at hf ⊢; omega)
        simp only [parse_record_render, expect_comma_newline, hih]

end JsonOut

namespace JsonOut

theorem render_record_length (r : Ingest.Record) : 1 ≤ (render_record r).data.length := by
  rw [render_record]
  simp only [String.data_append, List.length_append]
  have h : 1 ≤ rec_open.data.length := by decide
  omega

theorem render_items_length (rs : List Ingest.Record) :
    rs.length ≤ (render_items rs).data.length := by
  induction rs with
  | nil => simp [render_items]
  | cons r rs' ih =>
    cases rs' with
    | nil =>
      have h := render_record_length r
      simpa [render_items] using h
    | cons r2 rs'' =>
      have h1 := render_record_length r
      simp only [render_items, String.data_append, List.length_append, List.length_cons] at ih ⊢
      omega

theorem render_records_ne_brackets (rs : List Ingest.Record) (hne : ¬ rs = []) :
    ¬ render_records rs = "[]" := by
  intro h
  rw [render_records, if_neg hne] at h
  have h2 := congrArg String.data h
  simp only [String.data_append] at h2
  simp at h2

theorem parse_render (rs : List Ingest.Record) :
    parse_records (render_records rs) = some rs := by
  by_cases hne : rs = []
  · subst hne
    simp [render_records, parse_records]
  · rw [parse_records, if_neg (render_records_ne_brackets rs hne),
      render_records, if_neg hne]
    have hdata : ("[\n" ++ render_items rs ++ "\n]").data =
        '[' :: '\n' :: ((render_items rs).data ++ '\n' :: ']' :: []) := by
      simp only [String.data_append]
      simp
    rw [hdata]
    have hexp : ∀ l : List Char, expect ['[', '\n'] ('[' :: '\n' :: l) = some l :=
      fun l => by simp [expect]
    simp only [hexp]
    rw [parse_items_render rs [] _ hne
      (by simp only [List.length_append, List.length_cons, List.length_nil]
          have := render_items_length rs
          omega)]
    simp

end JsonOut

/-- Claim C1 counterexample: on a fetch that succeeds with 2xx status but
whose parsed HTML has no `body` element, `extract_from_url` does not return
a string — the `AttributeError` raised by `soup.body.get_text` escapes it,
refuting "for all inputs the extractor's result is a (possibly empty)
string and no exception propagates to the ingestion driver". -/
theorem extract_url_missing_body_cex :
    Ingest.extract_from_url (Except.ok ⟨true, none⟩) =
      Except.error (PyExn.attributeError "NoneType object has no attribute get_text") := by
  decide

/-- Claim C1 (amended): the PDF, DOCX and TXT extractors never raise — for
every library outcome they return some string; the URL extractor returns
the empty string on any `requests.RequestException` (network failure, and
non-2xx status via `raise_for_status`) and the body text on success, but it
does not catch exceptions outside that class. -/
theorem extractors_error_behaviour :
    (∀ o : Ingest.PdfOracle, ∃ s, Ingest.extract_from_pdf o = Except.ok s) ∧
    (∀ o : Ingest.DocxOracle, ∃ s, Ingest.extract_from_docx o = Except.ok s) ∧
    (∀ o : Ingest.TxtOracle, ∃ s, Ingest.extract_from_txt o = Except.ok s) ∧
    (∀ e : PyExn, e.is_request_exn = true →
      Ingest.extract_from_url (Except.error e) = Except.ok "") ∧
    (∀ r : Ingest.UrlResponse, r.status_ok = false →
      Ingest.extract_from_url (Except.ok r) = Except.ok "") ∧
    (∀ r : Ingest.UrlResponse, ∀ t, r.status_ok = true → r.body_text = some t →
      Ingest.extract_from_url (Except.ok r) = Except.ok t) := by
  refine ⟨?_, ?_, ?_, ?_, ?_, ?_⟩
  · intro o
    cases o with
    | ok pages => exact ⟨_, rfl⟩
    | error e => exact ⟨"", rfl⟩
  · intro o
    cases o with
    | ok paras => exact ⟨_, rfl⟩
    | error e => exact ⟨"", rfl⟩
  · intro o
    cases o with
    | ok s => exact ⟨s, rfl⟩
    | error e => exact ⟨"", rfl⟩
  · intro e he
    simp [Ingest.extract_from_url, he]
  · intro r hr
    simp [Ingest.extract_from_url, hr]
  · intro r t hr ht
    simp [Ingest.extract_from_url, hr, ht]

/-- Claim C1 (amended) witness: concrete applications of each clause. -/
theorem extractors_error_behaviour_witness :
    (∃ s, Ingest.extract_from_pdf (Except.error (PyExn.otherError "bad pdf")) = Except.ok s) ∧
    Ingest.extract_from_url (Except.error (PyExn.requestException "timeout")) = Except.ok "" ∧
    Ingest.extract_from_url (Except.ok ⟨false, some "ignored"⟩) = Except.ok "" ∧
    Ingest.extract_from_url (Except.ok ⟨true, some "visible text"⟩) = Except.ok "visible text" :=
  ⟨extractors_error_behaviour.1 _,
   extractors_error_behaviour.2.2.2.1 _ rfl,
   extractors_error_behaviour.2.2.2.2.1 _ rfl,
   extractors_error_behaviour.2.2.2.2.2 _ _ rfl rfl⟩

/-- Claim C2 (code bug): when `requests.post` itself raises a network
error, the `except requests.RequestException` handler evaluates
`response.text` with the local `response` never assigned, so the handler
raises `UnboundLocalError` instead of returning `None` — and the
interactive loop is terminated by that exception rather than continuing. -/
theorem translate_network_failure_raises :
    QueryInterface.translate
      ⟨Except.error (PyExn.requestException "ConnectionError"), fun _ => none⟩ =
      QueryInterface.TransResult.raised (PyExn.unboundLocalError "response") ∧
    (QueryInterface.run_loop
      [⟨"who founded Google",
        ⟨Except.error (PyExn.requestException "ConnectionError"), fun _ => none⟩,
        Except.ok []⟩]).exit =
      QueryInterface.LoopExit.crashed (PyExn.unboundLocalError "response") := by
  exact ⟨rfl, rfl⟩

/-- Claim C3 counterexample: when the generated text is valid JSON that
lacks a `query` field, `translate` returns the parsed object itself, not
`None` — the missing-field rejection happens in the interactive loop, not
in `translate`. -/
theorem translate_missing_query_cex :
    QueryInterface.translate
      ⟨Except.ok ⟨true, "raw body", some ⟨some "generated"⟩⟩,
        fun _ => some ⟨none, some "the explanation"⟩⟩ =
      QueryInterface.TransResult.ok ⟨none, some "the explanation"⟩ ∧
    ¬ QueryInterface.translate
      ⟨Except.ok ⟨true, "raw body", some ⟨some "generated"⟩⟩,
        fun _ => some ⟨none, some "the explanation"⟩⟩ =
      QueryInterface.TransResult.null := by
  exact ⟨rfl, by decide⟩

/-- Claim C3 (amended): `translate` returns `None` when the response body
is not valid JSON (and when the generated text is not valid JSON), but
when the generated text is valid JSON lacking a `query` field it returns
the parsed object; the interactive loop — not `translate` — then rejects
that object and prints the could-not-generate message. -/
theorem translate_null_and_reject_behaviour :
    (∀ (env : QueryInterface.LlmEnv) (resp : QueryInterface.HttpResponse),
      env.post = Except.ok resp → resp.status_ok = true → resp.body_json = none →
      QueryInterface.translate env = QueryInterface.TransResult.null) ∧
    (∀ (env : QueryInterface.LlmEnv) (resp : QueryInterface.HttpResponse)
      (body : QueryInterface.RespBody) (txt : String),
      env.post = Except.ok resp → resp.status_ok = true → resp.body_json = some body →
      body.generated_text = some txt → env.loads txt = none →
      QueryInterface.translate env = QueryInterface.TransResult.null) ∧
    (∀ (env : QueryInterface.LlmEnv) (resp : QueryInterface.HttpResponse)
      (body : QueryInterface.RespBody) (txt : String) (obj : QueryInterface.LoadedObj),
      env.post = Except.ok resp → resp.status_ok = true → resp.body_json = some body →
      body.generated_text = some txt → env.loads txt = some obj → obj.query = none →
      QueryInterface.translate env = QueryInterface.TransResult.ok obj) ∧
    (∀ (i : QueryInterface.LoopInput) (rest : List QueryInterface.LoopInput)
      (obj : QueryInterface.LoadedObj),
      ¬ py_lower i.question = "exit" →
      QueryInterface.translate i.llm = QueryInterface.TransResult.ok obj →
      obj.query = none →
      (QueryInterface.run_loop (i :: rest)).events.head? =
        some QueryInterface.IterEvent.invalid) := by
  refine ⟨?_, ?_, ?_, ?_⟩
  · intro env resp hp hs hb
    simp [QueryInterface.translate, hp, hs, hb]
  · intro env resp body txt hp hs hb hg hl
    simp [QueryInterface.translate, hp, hs, hb, hg, hl]
  · intro env resp body txt obj hp hs hb hg hl hq
    simp [QueryInterface.translate, hp, hs, hb, hg, hl]
  · intro i rest obj hq ht hqy
    rw [QueryInterface.run_loop]
    simp [hq, ht, hqy]

/-- Claim C3 (amended) witness: a body that is not valid JSON yields
`None`; a generated object without `query` is returned and then rejected
by the loop. -/
theorem translate_null_and_reject_behaviour_witness :
    QueryInterface.translate ⟨Except.ok ⟨true, "not json", none⟩, fun _ => none⟩ =
      QueryInterface.TransResult.null ∧
    QueryInterface.translate
      ⟨Except.ok ⟨true, "raw", some ⟨some "gen"⟩⟩, fun _ => some ⟨none, none⟩⟩ =
      QueryInterface.TransResult.ok ⟨none, none⟩ ∧
    (QueryInterface.run_loop
      [⟨"q", ⟨Except.ok ⟨true, "raw", some ⟨some "gen"⟩⟩, fun _ => some ⟨none, none⟩⟩,
        Except.ok []⟩]).events.head? = some QueryInterface.IterEvent.invalid :=
  ⟨translate_null_and_reject_behaviour.1 _ ⟨true, "not json", none⟩ rfl rfl rfl,
   translate_null_and_reject_behaviour.2.2.1 _ ⟨true, "raw", some ⟨some "gen"⟩⟩
     ⟨some "gen"⟩ "gen" ⟨none, none⟩ rfl rfl rfl rfl rfl rfl,
   translate_null_and_reject_behaviour.2.2.2 _ [] ⟨none, none⟩ (by decide) rfl rfl⟩

/-- Claim C4: `run_query` returns `None` exactly when query execution
throws; a successful execution with zero rows returns the empty list, a
value distinguishable from `None`; no execution error escapes
`run_query`. -/
theorem run_query_null_iff :
    ∀ exec : Except PyExn (List QueryInterface.Row),
      ((QueryInterface.run_query exec = none) ↔ ∃ e, exec = Except.error e) ∧
      (exec = Except.ok [] → QueryInterface.run_query exec = some []) ∧
      some ([] : List QueryInterface.Row) ≠ (none : Option (List QueryInterface.Row)) := by
  intro exec
  refine ⟨?_, ?_, by simp⟩
  · cases exec with
    | ok rows => simp [QueryInterface.run_query]
    | error e => simp [QueryInterface.run_query]
  · intro h
    subst h
    rfl

/-- Claim C4 witness: a zero-row success gives the empty list; a throwing
execution gives `None`. -/
theorem run_query_null_iff_witness :
    QueryInterface.run_query (Except.ok ([] : List QueryInterface.Row)) = some [] ∧
    QueryInterface.run_query
      (Except.error (PyExn.otherError "CypherSyntaxError") :
        Except PyExn (List QueryInterface.Row)) = none :=
  ⟨(run_query_null_iff (Except.ok [])).2.1 rfl,
   (run_query_null_iff (Except.error (PyExn.otherError "CypherSyntaxError"))).1.mpr ⟨_, rfl⟩⟩

/-- Claim C5: on a completed ingestion run, the written record sequence is
exactly the inputs whose extraction produced non-empty text — each file or
submitted URL contributes a record precisely when its extracted content is
non-empty — and no record with empty content ever appears. -/
theorem ingest_records_iff_nonempty :
    ∀ (docs : Option (List Ingest.DocFile)) (url_lines : Option (List String))
      (fetch : String → Except PyExn Ingest.UrlResponse)
      (calls : List String) (data : List Ingest.Record),
      Ingest.main docs url_lines fetch = (calls, Ingest.MainOutcome.wrote data) →
      data = (docs.getD []).filterMap Ingest.file_extraction ++
             (url_lines.getD []).filterMap (Ingest.url_extraction fetch) ∧
      ∀ r ∈ data, ¬ r.content = "" := by
  intro docs url_lines fetch calls data h
  obtain ⟨hd, _, _⟩ := Ingest.main_wrote_spec docs url_lines fetch calls data h
  refine ⟨hd, ?_⟩
  intro r hr
  rw [hd] at hr
  rcases List.mem_append.mp hr with h1 | h1
  · obtain ⟨f, _, hf⟩ := List.mem_filterMap.mp h1
    exact Ingest.file_extraction_content f r hf
  · obtain ⟨l, _, hl⟩ := List.mem_filterMap.mp h1
    exact Ingest.url_extraction_content fetch l r hl

/-- Claim C5 witness: a run with one non-empty text file, a comment line,
a blank line and one fetchable URL writes exactly the two non-empty
records. -/
theorem ingest_records_iff_nonempty_witness :
    ([⟨"a.txt", "hello"⟩, ⟨"http://x", "W"⟩] : List Ingest.Record) =
      ((some [⟨"a.txt", ".txt", Except.ok [], Except.ok [], Except.ok "hello"⟩] :
        Option (List Ingest.DocFile)).getD []).filterMap Ingest.file_extraction ++
      ((some ["# comment", "   ", " http://x "] : Option (List String)).getD
        []).filterMap (Ingest.url_extraction (fun _ => Except.ok ⟨true, some "W"⟩)) ∧
    ∀ r ∈ ([⟨"a.txt", "hello"⟩, ⟨"http://x", "W"⟩] : List Ingest.Record),
      ¬ r.content = "" :=
  ingest_records_iff_nonempty
    (some [⟨"a.txt", ".txt", Except.ok [], Except.ok [], Except.ok "hello"⟩])
    (some ["# comment", "   ", " http://x "])
    (fun _ => Except.ok ⟨true, some "W"⟩)
    ["http://x"] [⟨"a.txt", "hello"⟩, ⟨"http://x", "W"⟩] (by decide)

/-- Claim C6: if every file's extraction and every submitted URL's
extraction is empty, the driver ends in the no-output state — the write
step is never reached — and conversely the write step is reached only with
a non-empty accumulator. -/
theorem ingest_no_output_when_all_empty :
    (∀ (docs : Option (List Ingest.DocFile)) (url_lines : Option (List String))
      (fetch : String → Except PyExn Ingest.UrlResponse),
      (∀ files, docs = some files → ∀ f ∈ files, Ingest.dispatch_file f = Except.ok "") →
      (∀ ls, url_lines = some ls → ∀ l ∈ ls, ∀ u, Ingest.submitted l = some u →
        Ingest.extract_from_url (fetch u) = Except.ok "") →
      (Ingest.main docs url_lines fetch).2 = Ingest.MainOutcome.no_output) ∧
    (∀ (docs : Option (List Ingest.DocFile)) (url_lines : Option (List String))
      (fetch : String → Except PyExn Ingest.UrlResponse)
      (calls : List String) (data : List Ingest.Record),
      Ingest.main docs url_lines fetch = (calls, Ingest.MainOutcome.wrote data) →
      ¬ data = []) := by
  constructor
  · exact fun docs url_lines fetch hf hu => Ingest.main_all_empty docs url_lines fetch hf hu
  · intro docs url_lines fetch calls data h
    exact (Ingest.main_wrote_spec docs url_lines fetch calls data h).2.1

/-- Claim C6 witness: an empty text file, a non-matching extension, a
comment line, a blank line and an unreachable URL produce no output
file. -/
theorem ingest_no_output_when_all_empty_witness :
    (Ingest.main
      (some [⟨"notes.txt", ".txt", Except.ok [], Except.ok [], Except.ok ""⟩,
             ⟨"img.png", ".png", Except.ok [], Except.ok [], Except.ok ""⟩])
      (some ["# only a comment", "   ", "http://dead"])
      (fun _ => Except.error (PyExn.requestException "unreachable"))).2 =
      Ingest.MainOutcome.no_output :=
  ingest_no_output_when_all_empty.1 _ _ _
    (by intro files hfe f hf
        cases hfe
        simp only [List.mem_cons, List.not_mem_nil, or_false] at hf
        rcases hf with rfl | rfl
        · decide
        · decide)
    (by intro ls hls l hl u hsub
        cases hls
        simp only [List.mem_cons, List.not_mem_nil, or_false] at hl
        rcases hl with rfl | rfl | rfl
        · rw [show Ingest.submitted "# only a comment" = none from by decide] at hsub
          cases hsub
        · rw [show Ingest.submitted "   " = none from by decide] at hsub
          cases hsub
        · decide)

/-- Claim C7: every URL ever passed to the URL extractor is the stripped
form of some input line, is non-empty and does not begin with `#` (so
blank and comment lines are never submitted); and on a completed run the
submitted URLs are exactly the stripped non-empty non-comment lines, in
order. -/
theorem ingest_urls_submitted :
    (∀ (docs : Option (List Ingest.DocFile)) (url_lines : Option (List String))
      (fetch : String → Except PyExn Ingest.UrlResponse),
      ∀ u ∈ (Ingest.main docs url_lines fetch).1,
      ∃ l ∈ url_lines.getD [],
        u = py_strip l ∧ ¬ u = "" ∧ ¬ py_startswith u "#" = true) ∧
    (∀ (docs : Option (List Ingest.DocFile)) (url_lines : Option (List String))
      (fetch : String → Except PyExn Ingest.UrlResponse)
      (calls : List String) (data : List Ingest.Record),
      Ingest.main docs url_lines fetch = (calls, Ingest.MainOutcome.wrote data) →
      calls = (url_lines.getD []).filterMap Ingest.submitted) := by
  constructor
  · intro docs url_lines fetch u hu
    obtain ⟨l, hl, hsub⟩ := Ingest.main_calls_spec docs url_lines fetch u hu
    obtain ⟨h1, h2, h3⟩ := Ingest.submitted_spec l u hsub
    exact ⟨l, hl, h1, h2, h3⟩
  · intro docs url_lines fetch calls data h
    exact (Ingest.main_wrote_spec docs url_lines fetch calls data h).2.2

/-- Claim C7 witness: with a comment line and a padded URL line, the one
submitted target is the stripped non-comment line. -/
theorem ingest_urls_submitted_witness :
    ∃ l ∈ ((some ["# c", "  http://a  "] : Option (List String)).getD []),
      "http://a" = py_strip l ∧ ¬ "http://a" = "" ∧
        ¬ py_startswith "http://a" "#" = true :=
  ingest_urls_submitted.1 none (some ["# c", "  http://a  "])
    (fun _ => Except.error (PyExn.requestException "x")) "http://a" (by decide)

/-- Claim C8: serializing any record sequence the way
`json.dump(..., indent=2, ensure_ascii=False)` does and re-parsing the
text yields exactly the same records, with `source` and `content`
character-for-character identical; and every character at or above 0x20
other than the quote and the backslash — all non-ASCII text included — is
written literally, not escaped. -/
theorem json_round_trip :
    (∀ rs : List Ingest.Record,
      JsonOut.parse_records (JsonOut.render_records rs) = some rs) ∧
    (∀ c : Char, 32 ≤ c.toNat → ¬ c = '"' → ¬ c = '\\' →
      JsonOut.escape_char c = [c]) :=
  ⟨JsonOut.parse_render, fun c h h1 h2 => JsonOut.escape_char_lit c h h1 h2⟩

/-- Claim C8 witness: a concrete non-ASCII record round-trips, and a
non-ASCII character is emitted literally. -/
theorem json_round_trip_witness :
    JsonOut.parse_records (JsonOut.render_records
      [⟨"café.txt", "naïve — résumé\n"⟩]) = some [⟨"café.txt", "naïve — résumé\n"⟩] ∧
    JsonOut.escape_char 'é' = ['é'] :=
  ⟨json_round_trip.1 [⟨"café.txt", "naïve — résumé\n"⟩],
   json_round_trip.2 'é' (by decide) (by decide) (by decide)⟩

/-- Claim C9: an input whose lower-cased form is `exit` breaks the loop at
once (nothing further is translated); any other input proceeds to
translation; and the loop reaches its normal `break` exit only when some
input lower-cases to `exit`. -/
theorem loop_exit_iff_exit_input :
    (∀ (i : QueryInterface.LoopInput) (rest : List QueryInterface.LoopInput),
      py_lower i.question = "exit" →
      QueryInterface.run_loop (i :: rest) = ⟨[], [], QueryInterface.LoopExit.userExit⟩) ∧
    (∀ (i : QueryInterface.LoopInput) (rest : List QueryInterface.LoopInput),
      ¬ py_lower i.question = "exit" →
      (QueryInterface.run_loop (i :: rest)).translated.head? = some i.question) ∧
    (∀ inputs : List QueryInterface.LoopInput,
      (QueryInterface.run_loop inputs).exit = QueryInterface.LoopExit.userExit →
      ∃ i ∈ inputs, py_lower i.question = "exit") := by
  refine ⟨?_, ?_, ?_⟩
  · intro i rest h
    rw [QueryInterface.run_loop]
    simp [h]
  · intro i rest h
    rw [QueryInterface.run_loop]
    simp only [if_neg h]
    cases ht : QueryInterface.translate i.llm with
    | raised e => simp
    | null => simp
    | ok obj =>
      cases hq : obj.query with
      | none => simp [hq]
      | some q => simp [hq]
  · intro inputs
    induction inputs with
    | nil =>
      rw [QueryInterface.run_loop]
      intro h
      cases h
    | cons i rest ih =>
      rw [QueryInterface.run_loop]
      by_cases h : py_lower i.question = "exit"
      · intro _
        exact ⟨i, List.mem_cons_self _ _, h⟩
      · simp only [if_neg h]
        cases ht : QueryInterface.translate i.llm with
        | raised e => intro hx; cases hx
        | null =>
          intro hx
          simp only at hx
          obtain ⟨j, hj, hjq⟩ := ih hx
          exact ⟨j, List.mem_cons_of_mem _ hj, hjq⟩
        | ok obj =>
          cases hq : obj.query with
          | none =>
            intro hx
            simp only [hq] at hx
            obtain ⟨j, hj, hjq⟩ := ih hx
            exact ⟨j, List.mem_cons_of_mem _ hj, hjq⟩
          | some q =>
            intro hx
            simp only [hq] at hx
            obtain ⟨j, hj, hjq⟩ := ih hx
            exact ⟨j, List.mem_cons_of_mem _ hj, hjq⟩

/-- Claim C9 witness: `EXIT` and `Exit` break the loop; a non-exit
question is passed to the translator. -/
theorem loop_exit_iff_exit_input_witness :
    QueryInterface.run_loop
      [⟨"EXIT", ⟨Except.error (PyExn.otherError "unused"), fun _ => none⟩, Except.ok []⟩] =
      ⟨[], [], QueryInterface.LoopExit.userExit⟩ ∧
    QueryInterface.run_loop
      [⟨"Exit", ⟨Except.error (PyExn.otherError "unused"), fun _ => none⟩, Except.ok []⟩] =
      ⟨[], [], QueryInterface.LoopExit.userExit⟩ ∧
    (QueryInterface.run_loop
      [⟨"hello", ⟨Except.ok ⟨false, "", none⟩, fun _ => none⟩,
        Except.ok []⟩]).translated.head? = some "hello" :=
  ⟨loop_exit_iff_exit_input.1 _ [] (by decide),
   loop_exit_iff_exit_input.1 _ [] (by decide),
   loop_exit_iff_exit_input.2.1 _ [] (by decide)⟩

/-- Claim C10: when the translator yields an object with a `query` field
but no `explanation`, the loop still runs the query, displaying the fixed
default "No explanation provided.". -/
theorem loop_missing_explanation_default :
    ∀ (i : QueryInterface.LoopInput) (rest : List QueryInterface.LoopInput)
      (obj : QueryInterface.LoadedObj) (q : String),
      ¬ py_lower i.question = "exit" →
      QueryInterface.translate i.llm = QueryInterface.TransResult.ok obj →
      obj.query = some q → obj.explanation = none →
      (QueryInterface.run_loop (i :: rest)).events.head? =
        some (QueryInterface.IterEvent.ran q "No explanation provided."
          (QueryInterface.run_query i.exec)) := by
  intro i rest obj q hq ht hqy hex
  rw [QueryInterface.run_loop]
  simp [hq, ht, hqy, hex]

/-- Claim C10 witness: a concrete response with only a `query` field is
executed with the default explanation text. -/
theorem loop_missing_explanation_default_witness :
    (QueryInterface.run_loop
      [⟨"who is the CEO",
        ⟨Except.ok ⟨true, "raw", some ⟨some "gen"⟩⟩,
          fun _ => some ⟨some "MATCH (n) RETURN n", none⟩⟩,
        Except.ok []⟩]).events.head? =
      some (QueryInterface.IterEvent.ran "MATCH (n) RETURN n"
        "No explanation provided." (some [])) :=
  loop_missing_explanation_default _ [] ⟨some "MATCH (n) RETURN n", none⟩
    "MATCH (n) RETURN n" (by decide) rfl rfl rfl
